import Mathlib

/-!
Shallow embedding of the L1 anomaly-detection engine:
the QXDM DLF log decoder (`dlf_parser.py`), the statistical baseline
tracker (`statistical_baseline_tracker.py`), the ML ensemble scorer
(`ml_anomaly_detection.py`), the temporal pattern analyzer
(`temporal_pattern_analyzer.py`), the protocol indicator extractor
(`enhanced_protocol_parser.py`) and the seven category detectors
(`folder_anomaly_analyzer_clickhouse.py`).

Python bytes are modelled as `List ℕ`, Python floats as `ℚ` where the
values stay rational and as `ℝ` where a square root enters
(`numpy.std`), `datetime` values as microsecond offsets from the QXDM
epoch (1980-01-06T00:00:00), and a `datetime.now()` fallback as `none`.
-/

namespace App

/-- Substring test on lists (Python's `pat in s`). -/
def containsSub {α : Type} [DecidableEq α] (pat : List α) : List α → Bool
  | [] => pat.isEmpty
  | c :: rest => pat.isPrefixOf (c :: rest) || containsSub pat rest

/-- Python `pat in s` on strings (used for the metric-name checks). -/
def containsStr (pat s : String) : Bool :=
  containsSub pat.toList s.toList

/-- ASCII bytes of a string literal (Python `b'...'`). -/
def strBytes (s : String) : List ℕ :=
  s.toList.map Char.toNat

/-- `bytes.lower()` on a single ASCII byte. -/
def byteLower (b : ℕ) : ℕ :=
  if 65 ≤ b ∧ b ≤ 90 then b + 32 else b

/-- `payload.lower()`. -/
def bytesLower (l : List ℕ) : List ℕ :=
  l.map byteLower

/-- `numpy.mean` over rationals (`0` on the empty list, which the code
never hits on the guarded paths). -/
def meanQ (l : List ℚ) : ℚ :=
  l.sum / l.length

/-- Population variance, the square of `numpy.std`. -/
def varQ (l : List ℚ) : ℚ :=
  ((l.map (fun x => (x - meanQ l) ^ 2)).sum) / l.length

/-- `numpy.std` (population standard deviation). -/
noncomputable def npStd (l : List ℚ) : ℝ :=
  Real.sqrt (varQ l)

/-! ## DLF parser (`dlf_parser.py`) -/

/-- Little-endian unsigned integer of a byte list (`struct.unpack`). -/
def leNat : List ℕ → ℕ
  | [] => 0
  | b :: rest => b + 256 * leNat rest

/-- Offset of `datetime.max` from the QXDM epoch 1980-01-06T00:00:00 in
microseconds; beyond it `QXDM_EPOCH + delta` raises `OverflowError`,
which `parse_qxdm_timestamp` catches, falling back to `datetime.now()`. -/
def maxEpochOffsetUs : ℕ := 253086335999999999

/-- `DLFParser.parse_qxdm_timestamp`: `none` models the
`datetime.now()` fallback (fewer than 8 bytes, a zero tick value, or an
overflowing offset); `some o` is the deterministic result
`QXDM_EPOCH + o` microseconds. Each tick is 1.25 ms = 1250 µs. -/
def parse_qxdm_timestamp (tsBytes : List ℕ) : Option ℕ :=
  if 8 ≤ tsBytes.length then
    let v := leNat (tsBytes.take 8)
    if 0 < v then
      if v * 1250 ≤ maxEpochOffsetUs then some (v * 1250) else none
    else none
  else none

/-- A parsed QXDM packet (`QXDMPacket`).  `time = none` stands for the
wall-clock fallback timestamp. -/
structure QXDMPacket where
  time : Option ℕ
  message_id : ℕ
  payload : List ℕ
  packet_number : ℕ
  deriving DecidableEq, Repr, Inhabited

/-- `DLFParser.parse_packet`: `none` when the record body is shorter
than 4 bytes (the packet is skipped). -/
def parse_packet (data : List ℕ) (pn : ℕ) : Option QXDMPacket :=
  if data.length < 4 then none
  else
    let mid := (data.getD 0 0) ||| ((data.getD 1 0) <<< 8)
    let ts := if 12 ≤ data.length then parse_qxdm_timestamp ((data.drop 4).take 8)
              else none
    some ⟨ts, mid, data, pn⟩

/-- Decoding loop of `DLFParser.parse_dlf_file`, on the raw bytes. -/
def parseDLFAux (bytes : List ℕ) (pn : ℕ) : List QXDMPacket :=
  match bytes with
  | [] => []
  | [_] => []
  | b0 :: b1 :: rest =>
    let packetLength := b0 + 256 * b1
    if _h : packetLength < 2 ∨ 65535 < packetLength then []
    else
      let body := rest.take (packetLength - 2)
      if body.length < packetLength - 2 then []
      else
        match parse_packet body pn with
        | some p => p :: parseDLFAux (rest.drop (packetLength - 2)) (pn + 1)
        | none => parseDLFAux (rest.drop (packetLength - 2)) pn
termination_by bytes.length
decreasing_by
  all_goals simp only [List.length_drop, List.length_cons]; omega

/-- `DLFParser.parse_dlf_file` on the file contents. -/
def parse_dlf_file (bytes : List ℕ) : List QXDMPacket :=
  parseDLFAux bytes 0

/-- One well-formed length-prefixed record: a 2-byte little-endian
length that includes itself, then the body. -/
def encodeRecord (body : List ℕ) : List ℕ :=
  ((body.length + 2) % 256) :: ((body.length + 2) / 256) :: body

/-- The packet `parse_packet` produces from a body of length ≥ 4. -/
def packetOf (body : List ℕ) (pn : ℕ) : QXDMPacket :=
  ⟨if 12 ≤ body.length then parse_qxdm_timestamp ((body.drop 4).take 8) else none,
   (body.getD 0 0) ||| ((body.getD 1 0) <<< 8), body, pn⟩

lemma parse_packet_of_len (body : List ℕ) (pn : ℕ) (h : 4 ≤ body.length) :
    parse_packet body pn = some (packetOf body pn) := by
  rw [parse_packet, if_neg (by omega)]
  rfl

lemma parseDLFAux_encode (body rest : List ℕ) (pn : ℕ)
    (h4 : 4 ≤ body.length) (h65 : body.length + 2 ≤ 65535) :
    parseDLFAux (encodeRecord body ++ rest) pn
      = packetOf body pn :: parseDLFAux rest (pn + 1) := by
  have hlen : (body.length + 2) % 256 + 256 * ((body.length + 2) / 256)
      = body.length + 2 := Nat.mod_add_div _ _
  rw [encodeRecord]
  rw [parseDLFAux.eq_def]
  dsimp only
  simp only [List.cons_append, hlen]
  have hnot : ¬ (body.length + 2 < 2 ∨ 65535 < body.length + 2) := by omega
  rw [dif_neg hnot]
  have htake : (body ++ rest).take (body.length + 2 - 2) = body := by
    have : body.length + 2 - 2 = body.length := by omega
    rw [this, List.take_left]
  have hdrop : (body ++ rest).drop (body.length + 2 - 2) = rest := by
    have : body.length + 2 - 2 = body.length := by omega
    rw [this, List.drop_left]
  rw [htake, hdrop]
  rw [if_neg (by omega)]
  rw [parse_packet_of_len body pn h4]

lemma parseDLFAux_corrupt (junk : List ℕ) (pn : ℕ) (c0 c1 : ℕ)
    (hc : c0 + 256 * c1 < 2) :
    parseDLFAux (c0 :: c1 :: junk) pn = [] := by
  rw [parseDLFAux.eq_def]
  dsimp only
  rw [dif_pos (Or.inl hc)]

lemma parseDLFAux_nil (pn : ℕ) : parseDLFAux [] pn = [] := by
  rw [parseDLFAux.eq_def]

/-- The packet list a well-formed record sequence should decode to. -/
def expectedPackets (pn : ℕ) : List (List ℕ) → List QXDMPacket
  | [] => []
  | b :: rs => packetOf b pn :: expectedPackets (pn + 1) rs

lemma expectedPackets_length (pn : ℕ) (rs : List (List ℕ)) :
    (expectedPackets pn rs).length = rs.length := by
  induction rs generalizing pn with
  | nil => rfl
  | cons b rs ih => simp [expectedPackets, ih]

lemma parseDLFAux_records (rs : List (List ℕ)) (tail : List ℕ) (pn : ℕ)
    (h : ∀ b ∈ rs, 4 ≤ b.length ∧ b.length + 2 ≤ 65535) :
    parseDLFAux ((rs.map encodeRecord).flatten ++ tail) pn
      = expectedPackets pn rs ++ parseDLFAux tail (pn + rs.length) := by
  induction rs generalizing pn with
  | nil => simp [expectedPackets]
  | cons b rs ih =>
    have hb := h b (by simp)
    simp only [List.map_cons, List.flatten_cons, List.append_assoc]
    rw [parseDLFAux_encode b _ pn hb.1 hb.2]
    rw [ih (pn + 1) (fun x hx => h x (by simp [hx]))]
    simp only [expectedPackets, List.cons_append, List.length_cons]
    rw [show pn + 1 + rs.length = pn + (rs.length + 1) from by omega]

lemma expectedPackets_get (rs : List (List ℕ)) (pn k : ℕ) (hk : k < rs.length) :
    (expectedPackets pn rs).getD k default = packetOf (rs.getD k []) (pn + k) := by
  induction rs generalizing pn k with
  | nil => simp at hk
  | cons b rs ih =>
    cases k with
    | zero => simp [expectedPackets]
    | succ k =>
      simp only [expectedPackets, List.getD_cons_succ]
      rw [ih (pn + 1) k (by simpa using hk)]
      congr 1
      omega

/-- C1: decoding `N` concatenated well-formed length-prefixed records
(2-byte little-endian length including itself, then the body) yields
exactly `N` packets, the `k`-th with message id
`body[0] ||| (body[1] <<< 8)`; and corrupting one record's declared
length to `0` truncates the decode at that record while reproducing all
previously decoded packets unchanged.  (A declared length above 65535
cannot occur: the length field is two bytes.) -/
theorem dlf_roundtrip_and_truncation (rs : List (List ℕ)) (junk : List ℕ)
    (h : ∀ b ∈ rs, 4 ≤ b.length ∧ b.length + 2 ≤ 65535) :
    (parse_dlf_file (rs.map encodeRecord).flatten).length = rs.length
    ∧ (∀ k, k < rs.length →
        ((parse_dlf_file (rs.map encodeRecord).flatten).getD k default).message_id
          = ((rs.getD k []).getD 0 0) ||| (((rs.getD k []).getD 1 0) <<< 8))
    ∧ parse_dlf_file ((rs.map encodeRecord).flatten ++ 0 :: 0 :: junk)
        = parse_dlf_file (rs.map encodeRecord).flatten := by
  have hmain : parse_dlf_file (rs.map encodeRecord).flatten = expectedPackets 0 rs := by
    have := parseDLFAux_records rs [] 0 h
    simpa [parse_dlf_file, parseDLFAux_nil] using this
  refine ⟨?_, ?_, ?_⟩
  · rw [hmain, expectedPackets_length]
  · intro k hk
    rw [hmain, expectedPackets_get rs 0 k hk]
    rfl
  · have := parseDLFAux_records rs (0 :: 0 :: junk) 0 h
    rw [parse_dlf_file, this, parseDLFAux_corrupt junk _ 0 0 (by norm_num)]
    rw [hmain, List.append_nil]

/-- Witness for `dlf_roundtrip_and_truncation` at two concrete records. -/
theorem dlf_roundtrip_and_truncation_witness :
    (parse_dlf_file ([[7, 1, 2, 3], [9, 9, 9, 9, 9]].map encodeRecord).flatten).length = 2
    ∧ ((parse_dlf_file ([[7, 1, 2, 3], [9, 9, 9, 9, 9]].map encodeRecord).flatten).getD
        0 default).message_id = 7 ||| (1 <<< 8) := by
  have h := dlf_roundtrip_and_truncation [[7, 1, 2, 3], [9, 9, 9, 9, 9]] []
    (by intro b hb; fin_cases hb <;> simp)
  exact ⟨h.1, by simpa using h.2.1 0 (by norm_num)⟩

/-- C2 (amended): for a record body of at least 12 bytes whose
little-endian 64-bit tick counter at bytes 4..12 is positive and keeps
the timestamp inside the representable `datetime` range, the decoded
packet timestamp is the device epoch 1980-01-06T00:00:00 plus
ticks × 1.25 ms (= ticks × 1250 µs); a tick counter of 0 instead falls
back to the current wall-clock time. -/
theorem qxdm_timestamp_ticks (body : List ℕ) (pn : ℕ) (h12 : 12 ≤ body.length)
    (ht : 0 < leNat ((body.drop 4).take 8))
    (hr : leNat ((body.drop 4).take 8) * 1250 ≤ maxEpochOffsetUs) :
    (packetOf body pn).time = some (leNat ((body.drop 4).take 8) * 1250)
    ∧ ∀ body' pn', body'.length = 12 → (body'.drop 4).take 8 = List.replicate 8 0 →
        (packetOf body' pn').time = none := by
  constructor
  · rw [packetOf]
    simp only [if_pos h12]
    rw [parse_qxdm_timestamp]
    have hlen : ((body.drop 4).take 8).length = 8 := by
      simp only [List.length_take, List.length_drop]
      omega
    rw [if_pos (by omega)]
    have : ((body.drop 4).take 8).take 8 = (body.drop 4).take 8 := by
      rw [List.take_take]
      norm_num
    rw [this, if_pos ht, if_pos hr]
  · intro body' pn' hlen' hz
    rw [packetOf]
    simp only [if_pos (by omega : 12 ≤ body'.length)]
    rw [parse_qxdm_timestamp, hz]
    norm_num [leNat]

/-- Witness for `qxdm_timestamp_ticks`: 800 ticks (bytes
`[0x20, 0x03, 0, ...]`) decode to epoch + 1 second (1 000 000 µs). -/
theorem qxdm_timestamp_ticks_witness :
    (packetOf [1, 2, 0, 0, 32, 3, 0, 0, 0, 0, 0, 0] 0).time = some 1000000 := by
  have h := qxdm_timestamp_ticks [1, 2, 0, 0, 32, 3, 0, 0, 0, 0, 0, 0] 0
    (by norm_num) (by norm_num [leNat]) (by norm_num [leNat, maxEpochOffsetUs])
  have h1 := h.1
  norm_num [leNat] at h1
  exact h1

/-- C2 counterexample: a 12-byte record body whose tick counter is 0
decodes to the wall-clock fallback (`none`), not to the epoch
(`some 0`): `parse_packet` does not map tick 0 to the epoch. -/
theorem qxdm_timestamp_zero_tick_counterexample :
    ((parse_packet [5, 0, 0, 0, 0, 0, 0, 0, 0, 0, 0, 0] 0).map QXDMPacket.time)
        = some none
    ∧ ((parse_packet [5, 0, 0, 0, 0, 0, 0, 0, 0, 0, 0, 0] 0).map QXDMPacket.time)
        ≠ some (some 0) := by
  constructor
  · rfl
  · intro h
    rw [show (parse_packet [5, 0, 0, 0, 0, 0, 0, 0, 0, 0, 0, 0] 0).map
        QXDMPacket.time = some none from rfl] at h
    exact Option.noConfusion (Option.some.inj h)

/-! ## Statistical baseline tracker (`statistical_baseline_tracker.py`) -/

/-- A `collections.deque` with a `maxlen` bound. -/
structure Deque where
  maxlen : ℕ
  data : List ℚ
  deriving DecidableEq, Repr

/-- `deque.append`: when the deque is at capacity the oldest (leftmost)
entry is evicted. -/
def Deque.push (d : Deque) (v : ℚ) : Deque :=
  if d.data.length < d.maxlen then ⟨d.maxlen, d.data ++ [v]⟩
  else ⟨d.maxlen, (d.data ++ [v]).drop (d.data.length + 1 - d.maxlen)⟩

/-- The per-category metric tables (`self.baselines`), as an
insertion-ordered dictionary. -/
def Baselines := List (String × List (String × Deque))

/-- Dictionary lookup (`d[k]` / `k in d`). -/
def lookupA {α : Type} (l : List (String × α)) (k : String) : Option α :=
  (l.find? (fun p => p.1 == k)).map Prod.snd

/-- Pointwise dictionary update at a key. -/
def updateA {α : Type} (l : List (String × α)) (k : String) (f : α → α) :
    List (String × α) :=
  l.map (fun p => if p.1 == k then (p.1, f p.2) else p)

/-- `StatisticalBaselineTracker.__init__`'s `self.baselines` table. -/
def initBaselines (w : ℕ) : Baselines :=
  [("rach", [("success_rate", ⟨w, []⟩), ("attempt_count", ⟨w, []⟩),
             ("avg_attempts_per_file", ⟨100, []⟩)]),
   ("handover", [("success_rate", ⟨w, []⟩), ("attempt_count", ⟨w, []⟩),
                 ("avg_duration", ⟨w, []⟩)]),
   ("harq", [("retransmission_rate", ⟨w, []⟩), ("avg_retx_per_window", ⟨w, []⟩),
             ("max_consecutive_retx", ⟨w, []⟩)]),
   ("crc", [("error_rate", ⟨w, []⟩), ("errors_per_1000_packets", ⟨100, []⟩)]),
   ("rrc", [("connection_success_rate", ⟨w, []⟩), ("setup_attempts", ⟨w, []⟩)]),
   ("timing_advance", [("violation_rate", ⟨w, []⟩), ("avg_ta_adjustments", ⟨w, []⟩)]),
   ("power_control", [("adjustment_frequency", ⟨w, []⟩), ("avg_power_changes", ⟨w, []⟩)]),
   ("general", [("packet_inter_arrival_time", ⟨w, []⟩), ("packet_size", ⟨w, []⟩),
                ("jitter", ⟨w, []⟩)])]

/-- The categories initialized in the baseline table. -/
def validCats : List String :=
  ["rach", "handover", "harq", "crc", "rrc", "timing_advance", "power_control",
   "general"]

/-- `_initialize_default_thresholds`. -/
def defaultThresholdsTable : List (String × List (String × ℚ)) :=
  [("rach", [("max_attempts_threshold", 10), ("min_success_rate", 4/5),
             ("excessive_attempts_multiplier", 2)]),
   ("handover", [("min_success_rate", 17/20), ("max_failure_rate", 3/20)]),
   ("harq", [("max_retx_per_window", 5), ("max_retx_rate", 1/5),
             ("excessive_retx_multiplier", 5/2)]),
   ("crc", [("max_error_rate", 1/100), ("errors_per_1000_threshold", 10)]),
   ("rrc", [("min_success_rate", 9/10), ("max_rejection_rate", 1/10)]),
   ("timing_advance", [("max_violation_rate", 1/20), ("ta_range_min", -31),
                       ("ta_range_max", 31)]),
   ("power_control", [("max_adjustment_frequency", 3/10),
                      ("power_delta_threshold", 10)])]

/-- The static default threshold for a `(category, metric)` pair
(`self.adaptive_thresholds[anomaly_type][metric_name]`). -/
def staticDefault (cat metric : String) : Option ℚ :=
  match lookupA defaultThresholdsTable cat with
  | some ms => lookupA ms metric
  | none => none

/-- `StatisticalBaselineTracker.update_baseline` (the running
count/sum/sum-of-squares side table is not modelled: nothing reads it). -/
def update_baseline (b : Baselines) (cat metric : String) (v : ℚ) : Baselines :=
  match lookupA b cat with
  | none => b
  | some ms =>
    match lookupA ms metric with
    | none => b
    | some _ => updateA b cat (fun ms' => updateA ms' metric (fun d => d.push v))

/-- `StatisticalBaselineTracker.get_adaptive_threshold`. -/
noncomputable def get_adaptive_threshold (b : Baselines) (cat metric : String)
    (numStd : ℝ) : Option ℝ :=
  match lookupA b cat with
  | none => none
  | some ms =>
    match lookupA ms metric with
    | none => none
    | some d =>
      if d.data.length < 30 then (staticDefault cat metric).map (fun q => (q : ℝ))
      else some ((meanQ d.data : ℝ) + numStd * npStd d.data)

/-- The stored history consulted by `is_anomalous`
(`list(self.baselines[anomaly_type].get(metric_name, []))`). -/
def histData (b : Baselines) (cat metric : String) : List ℚ :=
  match lookupA b cat with
  | none => []
  | some ms =>
    match lookupA ms metric with
    | some d => d.data
    | none => []

/-- The metric-keyed fallback table inside `is_anomalous`
(`default_thresholds.get(metric_name, 1.0)`). -/
def fallbackDefault (metric : String) : ℚ :=
  if metric == "success_rate" then 4/5
  else if metric == "error_rate" then 1/20
  else if metric == "retransmission_rate" then 3/20
  else if metric == "attempt_count" then 10
  else 1

/-- The threshold `is_anomalous` resolves before judging the value. -/
noncomputable def resolvedThreshold (b : Baselines) (cat metric : String) : ℝ :=
  match get_adaptive_threshold b cat metric 2 with
  | some t => t
  | none => (fallbackDefault metric : ℝ)

open scoped Classical in
/-- The (unclipped) `deviation_score` local of `is_anomalous`. -/
noncomputable def devScore (b : Baselines) (cat metric : String) (v : ℚ) : ℝ :=
  let threshold := resolvedThreshold b cat metric
  let data := histData b cat metric
  if 30 ≤ data.length then
    if 0 < npStd data then |((v : ℝ) - (meanQ data : ℝ)) / npStd data| / 3
    else |(v : ℝ) - (meanQ data : ℝ)|
  else if 0 < threshold then |(v : ℝ) - threshold| / threshold else 0

open scoped Classical in
/-- The `is_anomalous` local of the same name (the direction check on
the resolved threshold). -/
noncomputable def anomFlag (b : Baselines) (cat metric : String) (v : ℚ) : Bool :=
  let threshold := resolvedThreshold b cat metric
  if containsStr "rate" metric then
    if containsStr "success" metric then decide ((v : ℝ) < threshold)
    else decide (threshold < (v : ℝ))
  else decide (threshold < (v : ℝ))

open scoped Classical in
/-- The `severity` local of `is_anomalous` (graded on the unclipped
deviation score). -/
noncomputable def sevOf (b : Baselines) (cat metric : String) (v mult : ℚ) : String :=
  if anomFlag b cat metric v then
    if ((2 * mult : ℚ) : ℝ) < devScore b cat metric v then "critical"
    else if (((3 : ℚ)/2 * mult : ℚ) : ℝ) < devScore b cat metric v then "high"
    else if ((mult : ℚ) : ℝ) < devScore b cat metric v then "medium"
    else "low"
  else "low"

/-- `StatisticalBaselineTracker.is_anomalous`, in the `Except` monad:
`.error` models the `KeyError` raised by `self.baselines[anomaly_type]`
for a category absent from the baseline table; the returned deviation
is the score clipped to 1 (`min(deviation_score, 1.0)`). -/
noncomputable def is_anomalous (b : Baselines) (cat metric : String) (v mult : ℚ) :
    Except Unit (Bool × ℝ × String) :=
  match lookupA b cat with
  | none => .error ()
  | some _ =>
    .ok (anomFlag b cat metric v, min (devScore b cat metric v) 1,
         sevOf b cat metric v mult)

/-- Whether an `Except` value is a success. -/
def isOkE {ε α : Type} : Except ε α → Bool
  | .ok _ => true
  | .error _ => false

lemma lookupA_isSome_iff {α : Type} (l : List (String × α)) (k : String) :
    (lookupA l k).isSome = true ↔ k ∈ l.map Prod.fst := by
  constructor
  · intro h
    rw [lookupA] at h
    rcases hf : l.find? (fun p => p.1 == k) with _ | x
    · rw [hf] at h
      simp at h
    · have hmem := List.mem_of_find?_eq_some hf
      have hp := List.find?_some hf
      simp only [beq_iff_eq] at hp
      exact List.mem_map.mpr ⟨x, hmem, hp⟩
  · intro h
    rcases List.mem_map.mp h with ⟨x, hx, hk⟩
    rw [lookupA]
    rcases hf : l.find? (fun p => p.1 == k) with _ | y
    · have := List.find?_eq_none.mp hf x hx
      simp only [beq_iff_eq] at this
      exact absurd hk this
    · rw [hf]
      rfl

lemma initBaselines_cats (w : ℕ) : (initBaselines w).map Prod.fst = validCats := rfl

lemma Deque.push_data (d : Deque) (v : ℚ) (h : d.data.length ≤ d.maxlen) :
    (d.push v).data = (d.data ++ [v]).drop (d.data.length + 1 - d.maxlen) := by
  rw [Deque.push]
  split_ifs with hlt
  · have : d.data.length + 1 - d.maxlen = 0 := by omega
    rw [this, List.drop_zero]
  · rfl

lemma Deque.push_length (d : Deque) (v : ℚ) (h : d.data.length ≤ d.maxlen) :
    (d.push v).data.length = min (d.data.length + 1) d.maxlen := by
  rw [Deque.push_data d v h]
  simp only [List.length_drop, List.length_append, List.length_singleton]
  omega

lemma Deque.push_maxlen (d : Deque) (v : ℚ) : (d.push v).maxlen = d.maxlen := by
  rw [Deque.push]
  split_ifs <;> rfl

lemma foldl_push (l : List ℚ) (d : Deque) (h : d.data.length ≤ d.maxlen) :
    (l.foldl Deque.push d).data
      = (d.data ++ l).drop (d.data.length + l.length - d.maxlen) := by
  induction l generalizing d with
  | nil =>
    simp only [List.foldl_nil, List.append_nil, List.length_nil]
    rw [show d.data.length + 0 - d.maxlen = 0 from by omega, List.drop_zero]
  | cons v t ih =>
    rw [List.foldl_cons]
    have hlen : (d.push v).data.length ≤ (d.push v).maxlen := by
      rw [Deque.push_length d v h, Deque.push_maxlen]
      omega
    rw [ih (d.push v) hlen, Deque.push_data d v h, Deque.push_maxlen]
    have hle : d.data.length + 1 - d.maxlen ≤ (d.data ++ [v]).length := by
      simp only [List.length_append, List.length_singleton]
      omega
    have hXa : List.drop (d.data.length + 1 - d.maxlen) (d.data ++ [v]) ++ t
        = List.drop (d.data.length + 1 - d.maxlen) ((d.data ++ [v]) ++ t) :=
      (List.drop_append_of_le_length hle).symm
    rw [hXa, List.drop_drop]
    have hsplit : d.data ++ v :: t = (d.data ++ [v]) ++ t := by simp
    rw [hsplit]
    congr 1
    simp only [List.length_drop, List.length_append, List.length_singleton,
      List.length_cons, List.length_nil]
    omega

/-- C3: with fewer than 30 stored samples, `get_adaptive_threshold`
returns exactly the configured static default for the `(category,
metric)` pair (so `None` when none is configured); with ≥ 30 samples it
returns `mean + k·std` over exactly the stored FIFO contents; the FIFO
never exceeds its capacity, evicting the oldest entry first, and in
particular the 1001st insert into a capacity-1000 FIFO evicts the 1st. -/
theorem adaptive_threshold_spec :
    (∀ (b : Baselines) (cat metric : String) (k : ℝ)
        (ms : List (String × Deque)) (d : Deque),
      lookupA b cat = some ms → lookupA ms metric = some d →
      (d.data.length < 30 →
        get_adaptive_threshold b cat metric k
          = (staticDefault cat metric).map (fun q => (q : ℝ)))
      ∧ (30 ≤ d.data.length →
        get_adaptive_threshold b cat metric k
          = some ((meanQ d.data : ℝ) + k * npStd d.data)))
    ∧ (∀ (d : Deque) (v : ℚ), d.data.length ≤ d.maxlen →
        (d.push v).data.length ≤ d.maxlen
        ∧ (d.data.length = d.maxlen → (d.push v).data = (d.data ++ [v]).drop 1))
    ∧ (((List.range 1001).map (Nat.cast : ℕ → ℚ)).foldl Deque.push ⟨1000, []⟩).data
        = ((List.range 1001).map (Nat.cast : ℕ → ℚ)).drop 1 := by
  refine ⟨?_, ?_, ?_⟩
  · intro b cat metric k ms d h1 h2
    rw [get_adaptive_threshold, h1]
    dsimp only
    rw [h2]
    dsimp only
    constructor
    · intro hlt
      rw [if_pos hlt]
    · intro hge
      rw [if_neg (by omega)]
  · intro d v h
    refine ⟨?_, ?_⟩
    · rw [Deque.push_length d v h]
      omega
    · intro heq
      rw [Deque.push_data d v h, heq]
      congr 1
      omega
  · have hlen : ((List.range 1001).map (Nat.cast : ℕ → ℚ)).length = 1001 := by
      rw [List.length_map, List.length_range]
    rw [foldl_push _ _ (by simp)]
    rw [List.nil_append]
    norm_num [hlen]

/-- Witness for `adaptive_threshold_spec`: on the freshly initialized
table, `('rach', 'success_rate')` has no configured static default, so
the threshold is `None`; and a full capacity-2 FIFO evicts its oldest
entry on the next push. -/
theorem adaptive_threshold_spec_witness :
    get_adaptive_threshold (initBaselines 1000) "rach" "success_rate" 2 = none
    ∧ (Deque.push ⟨2, [5, 6]⟩ 7).data = [6, 7] := by
  constructor
  · have h := (adaptive_threshold_spec.1 (initBaselines 1000) "rach" "success_rate" 2
      [("success_rate", ⟨1000, []⟩), ("attempt_count", ⟨1000, []⟩),
       ("avg_attempts_per_file", ⟨100, []⟩)] ⟨1000, []⟩ (by decide) (by decide)).1
      (by norm_num)
    rw [h]
    decide
  · have h := (adaptive_threshold_spec.2.1 ⟨2, [5, 6]⟩ 7 (by norm_num)).2 (by norm_num)
    rw [h]
    decide

/-- C10: `is_anomalous` succeeds exactly on the eight categories
initialized in the baseline table; on any other category it raises
(`KeyError` on `self.baselines[anomaly_type]`), even though
`get_adaptive_threshold` returns `None` for the same unknown category
without raising. -/
theorem is_anomalous_unknown_category (w : ℕ) (cat metric : String) (v mult : ℚ) :
    (isOkE (is_anomalous (initBaselines w) cat metric v mult) = true ↔ cat ∈ validCats)
    ∧ (cat ∉ validCats →
        is_anomalous (initBaselines w) cat metric v mult = .error ()
        ∧ get_adaptive_threshold (initBaselines w) cat metric 2 = none) := by
  have hiff : (lookupA (initBaselines w) cat).isSome = true ↔ cat ∈ validCats := by
    rw [lookupA_isSome_iff, initBaselines_cats]
  constructor
  · rw [is_anomalous]
    rcases hlk : lookupA (initBaselines w) cat with _ | ms
    · simp only [isOkE]
      rw [← hiff, hlk]
      simp
    · simp only [isOkE]
      rw [← hiff, hlk]
      simp
  · intro hout
    have hnone : lookupA (initBaselines w) cat = none := by
      rcases hlk : lookupA (initBaselines w) cat with _ | ms
      · rfl
      · exact absurd (hiff.mp (by rw [hlk]; rfl)) hout
    constructor
    · rw [is_anomalous, hnone]
    · rw [get_adaptive_threshold, hnone]

/-- Witness for `is_anomalous_unknown_category`: the category `"mac"`
is not in the table, so `is_anomalous` raises while
`get_adaptive_threshold` returns `None`; the category `"rach"` is, so
`is_anomalous` returns a result. -/
theorem is_anomalous_unknown_category_witness :
    is_anomalous (initBaselines 1000) "mac" "error_rate" 1 1 = .error ()
    ∧ get_adaptive_threshold (initBaselines 1000) "mac" "error_rate" 2 = none
    ∧ isOkE (is_anomalous (initBaselines 1000) "rach" "attempt_count" 1 1) = true := by
  have h1 := (is_anomalous_unknown_category 1000 "mac" "error_rate" 1 1).2 (by decide)
  have h2 := (is_anomalous_unknown_category 1000 "rach" "attempt_count" 1 1).1.mpr
    (by decide)
  exact ⟨h1.1, h1.2, h2⟩

lemma get_adaptive_threshold_eq (b : Baselines) (cat metric : String) (k : ℝ) :
    get_adaptive_threshold b cat metric k
      = match (lookupA b cat).bind (fun ms => lookupA ms metric) with
        | none => none
        | some d =>
          if d.data.length < 30 then (staticDefault cat metric).map (fun q => (q : ℝ))
          else some ((meanQ d.data : ℝ) + k * npStd d.data) := by
  rw [get_adaptive_threshold]
  cases hx : lookupA b cat with
  | none => rfl
  | some ms =>
    cases hy : lookupA ms metric with
    | none => rfl
    | some d => rfl

lemma histData_eq (b : Baselines) (cat metric : String) :
    histData b cat metric
      = match (lookupA b cat).bind (fun ms => lookupA ms metric) with
        | some d => d.data
        | none => [] := by
  rw [histData]
  cases hx : lookupA b cat with
  | none => rfl
  | some ms =>
    cases hy : lookupA ms metric with
    | none => rfl
    | some d => rfl

lemma is_anomalous_ok' (b : Baselines) (cat metric : String) (v mult : ℚ)
    (h : (lookupA b cat).isSome = true) :
    is_anomalous b cat metric v mult
      = .ok (anomFlag b cat metric v, min (devScore b cat metric v) 1,
             sevOf b cat metric v mult) := by
  rcases hlk : lookupA b cat with _ | ms
  · rw [hlk] at h
    simp at h
  · rw [is_anomalous, hlk]

lemma devScore_nonneg (b : Baselines) (cat metric : String) (v : ℚ) :
    0 ≤ devScore b cat metric v := by
  rw [devScore]
  split_ifs with h1 h2 h3
  · positivity
  · positivity
  · exact div_nonneg (abs_nonneg _) h3.le
  · exact le_refl 0

/-- Concrete evaluation on the fresh table: empty history, no static
default, fallback threshold 10, deviation `|3 − 10|/10 = 0.7`. -/
lemma eval_rach_attempt :
    is_anomalous (initBaselines 1000) "rach" "attempt_count" 3 1
      = .ok (false, 7/10, "low") := by
  have hbind : (lookupA (initBaselines 1000) "rach").bind
      (fun ms => lookupA ms "attempt_count") = some ⟨1000, []⟩ := by decide
  have hga : get_adaptive_threshold (initBaselines 1000) "rach" "attempt_count" 2
      = none := by
    rw [get_adaptive_threshold_eq, hbind]
    dsimp only
    rw [if_pos (by norm_num)]
    rw [(by decide : staticDefault "rach" "attempt_count" = none)]
    rfl
  have hth : resolvedThreshold (initBaselines 1000) "rach" "attempt_count" = 10 := by
    rw [resolvedThreshold, hga]
    dsimp only
    rw [(by decide : fallbackDefault "attempt_count" = 10)]
    norm_num
  have hhist : histData (initBaselines 1000) "rach" "attempt_count" = [] := by
    rw [histData_eq, hbind]
  have hdev : devScore (initBaselines 1000) "rach" "attempt_count" 3 = 7/10 := by
    rw [devScore]
    simp only [hhist, hth, List.length_nil]
    rw [if_neg (by norm_num), if_pos (by norm_num)]
    rw [show ((3 : ℚ) : ℝ) - 10 = -7 by norm_num, abs_of_nonpos (by norm_num)]
    norm_num
  have hflag : anomFlag (initBaselines 1000) "rach" "attempt_count" 3 = false := by
    rw [anomFlag]
    simp only [hth]
    rw [(by decide : containsStr "rate" "attempt_count" = false)]
    rw [if_neg (by simp)]
    exact decide_eq_false (by norm_num)
  have hsev : sevOf (initBaselines 1000) "rach" "attempt_count" 3 1 = "low" := by
    rw [sevOf, hflag]
    rw [if_neg (by simp)]
  rw [is_anomalous_ok' _ _ _ _ _ (by decide), hflag, hdev, hsev,
    min_eq_left (by norm_num)]

/-- C6 (amended): whenever `is_anomalous` returns, the deviation score
is in `[0, 1]`; with ≥ 30 stored samples and positive standard
deviation it is `|z|/3` clipped to 1; with ≥ 30 samples and zero
standard deviation it is `|value − mean|` clipped to 1; with < 30
samples it is `|value − threshold|/threshold` (0 for a non-positive
threshold) clipped to 1. -/
theorem is_anomalous_deviation_bounds (b : Baselines) (cat metric : String)
    (v mult : ℚ) (r : Bool × ℝ × String)
    (h : is_anomalous b cat metric v mult = .ok r) :
    0 ≤ r.2.1 ∧ r.2.1 ≤ 1
    ∧ (30 ≤ (histData b cat metric).length →
        (0 < npStd (histData b cat metric) →
          r.2.1 = min (|((v : ℝ) - (meanQ (histData b cat metric) : ℝ))
            / npStd (histData b cat metric)| / 3) 1)
        ∧ (npStd (histData b cat metric) = 0 →
          r.2.1 = min |(v : ℝ) - (meanQ (histData b cat metric) : ℝ)| 1))
    ∧ ((histData b cat metric).length < 30 →
        r.2.1 = min (if 0 < resolvedThreshold b cat metric
          then |(v : ℝ) - resolvedThreshold b cat metric| / resolvedThreshold b cat metric
          else 0) 1) := by
  have hr : r.2.1 = min (devScore b cat metric v) 1 := by
    rw [is_anomalous] at h
    rcases hlk : lookupA b cat with _ | ms <;> rw [hlk] at h
    · exact absurd h (by simp)
    · have := Except.ok.inj h
      rw [← this]
  refine ⟨?_, ?_, ?_, ?_⟩
  · rw [hr]
    exact le_min (devScore_nonneg b cat metric v) (by norm_num)
  · rw [hr]
    exact min_le_right _ _
  · intro h30
    constructor
    · intro hpos
      rw [hr, devScore, if_pos h30, if_pos hpos]
    · intro hzero
      rw [hr, devScore, if_pos h30, if_neg (by rw [hzero]; exact lt_irrefl 0)]
  · intro h30
    rw [hr, devScore, if_neg (by omega)]

/-- Witness for `is_anomalous_deviation_bounds` on the fresh table. -/
theorem is_anomalous_deviation_bounds_witness :
    is_anomalous (initBaselines 1000) "rach" "attempt_count" 3 1
      = .ok (false, 7/10, "low")
    ∧ (0 : ℝ) ≤ 7/10 ∧ (7/10 : ℝ) ≤ 1 := by
  have hb := is_anomalous_deviation_bounds (initBaselines 1000) "rach"
    "attempt_count" 3 1 _ eval_rach_attempt
  exact ⟨eval_rach_attempt, hb.1, hb.2.1⟩

lemma exceptMap_ok {eps a b : Type} (f : a → b) (x : a) :
    Except.map f (.ok x : Except eps a) = .ok (f x) := rfl

/-- The tracker holding 30 observations of `0.5` on
`('rach', 'success_rate')` (30 `update_baseline` calls on the fresh
table): its stored standard deviation is zero. -/
def bZeroStd : Baselines :=
  [("rach", [("success_rate", ⟨1000, List.replicate 30 ((1 : ℚ)/2)⟩),
             ("attempt_count", ⟨1000, []⟩), ("avg_attempts_per_file", ⟨100, []⟩)]),
   ("handover", [("success_rate", ⟨1000, []⟩), ("attempt_count", ⟨1000, []⟩),
                 ("avg_duration", ⟨1000, []⟩)]),
   ("harq", [("retransmission_rate", ⟨1000, []⟩), ("avg_retx_per_window", ⟨1000, []⟩),
             ("max_consecutive_retx", ⟨1000, []⟩)]),
   ("crc", [("error_rate", ⟨1000, []⟩), ("errors_per_1000_packets", ⟨100, []⟩)]),
   ("rrc", [("connection_success_rate", ⟨1000, []⟩), ("setup_attempts", ⟨1000, []⟩)]),
   ("timing_advance", [("violation_rate", ⟨1000, []⟩), ("avg_ta_adjustments", ⟨1000, []⟩)]),
   ("power_control", [("adjustment_frequency", ⟨1000, []⟩), ("avg_power_changes", ⟨1000, []⟩)]),
   ("general", [("packet_inter_arrival_time", ⟨1000, []⟩), ("packet_size", ⟨1000, []⟩),
                ("jitter", ⟨1000, []⟩)])]

/-- C6 counterexample: with 30 identical stored samples (standard
deviation zero), `is_anomalous` returns deviation `|value − mean|`
clipped — here `0.2` — while the claimed formula `|z|/3` clipped to 1
(division by the zero standard deviation) evaluates to `0`: the claim's
"`|z-score|/3` clipped whenever ≥ 30 samples exist" does not hold. -/
theorem is_anomalous_deviation_counterexample :
    (histData bZeroStd "rach" "success_rate").length = 30
    ∧ Except.map (fun r => r.2.1)
        (is_anomalous bZeroStd "rach" "success_rate" (7/10) 1) = .ok ((1 : ℝ)/5)
    ∧ min (|(((7 : ℚ)/10 : ℝ) - (meanQ (histData bZeroStd "rach" "success_rate") : ℝ))
        / npStd (histData bZeroStd "rach" "success_rate")| / 3) 1 = 0
    ∧ ((1 : ℝ)/5) ≠ 0 := by
  have hbind : (lookupA bZeroStd "rach").bind (fun ms => lookupA ms "success_rate")
      = some ⟨1000, List.replicate 30 ((1 : ℚ)/2)⟩ := rfl
  have hhist : histData bZeroStd "rach" "success_rate"
      = List.replicate 30 ((1 : ℚ)/2) := by
    rw [histData_eq, hbind]
  have hmean : meanQ (List.replicate 30 ((1 : ℚ)/2)) = 1/2 := by
    rw [meanQ, List.sum_replicate]
    simp [nsmul_eq_mul]
  have hvar : varQ (List.replicate 30 ((1 : ℚ)/2)) = 0 := by
    rw [varQ, List.map_replicate, hmean]
    simp [List.sum_replicate]
  have hstd : npStd (List.replicate 30 ((1 : ℚ)/2)) = 0 := by
    rw [npStd, hvar]
    norm_num
  have hdev : devScore bZeroStd "rach" "success_rate" (7/10) = 1/5 := by
    rw [devScore]
    simp only [hhist, List.length_replicate]
    rw [if_pos (by norm_num), if_neg (by rw [hstd]; exact lt_irrefl 0), hmean]
    rw [show (((7 : ℚ)/10 : ℚ) : ℝ) - (((1 : ℚ)/2 : ℚ) : ℝ) = 1/5 from by
      push_cast
      norm_num]
    rw [abs_of_nonneg (by norm_num)]
  refine ⟨by rw [hhist]; simp, ?_, ?_, by norm_num⟩
  · rw [is_anomalous_ok' bZeroStd "rach" "success_rate" (7/10) 1 (by rfl),
      exceptMap_ok]
    rw [hdev, min_eq_left (by norm_num)]
  · rw [hhist, hstd]
    simp

/-- C8 (amended): for metric names containing `"rate"`, a value is
anomalous below the threshold when the name also contains `"success"`
and above it otherwise; for metric names not containing `"rate"` the
value is anomalous above the threshold, even if the name contains
`"success"`. -/
theorem is_anomalous_directionality (b : Baselines) (cat metric : String)
    (v mult : ℚ) (r : Bool × ℝ × String)
    (h : is_anomalous b cat metric v mult = .ok r) :
    (containsStr "rate" metric = true → containsStr "success" metric = true →
      (r.1 = true ↔ (v : ℝ) < resolvedThreshold b cat metric))
    ∧ (containsStr "rate" metric = true → containsStr "success" metric = false →
      (r.1 = true ↔ resolvedThreshold b cat metric < (v : ℝ)))
    ∧ (containsStr "rate" metric = false →
      (r.1 = true ↔ resolvedThreshold b cat metric < (v : ℝ))) := by
  classical
  have hr : r.1 = anomFlag b cat metric v := by
    rw [is_anomalous] at h
    rcases hlk : lookupA b cat with _ | ms <;> rw [hlk] at h
    · exact absurd h (by simp)
    · have := Except.ok.inj h
      rw [← this]
  refine ⟨?_, ?_, ?_⟩
  · intro h1 h2
    rw [hr, anomFlag]
    simp only [h1, h2, eq_self_iff_true, if_true]
    rw [decide_eq_true_eq]
  · intro h1 h2
    rw [hr, anomFlag]
    simp only [h1, h2, eq_self_iff_true, if_true, Bool.false_eq_true, if_false]
    rw [decide_eq_true_eq]
  · intro h1
    rw [hr, anomFlag]
    simp only [h1, Bool.false_eq_true, if_false]
    rw [decide_eq_true_eq]

/-- Witness for `is_anomalous_directionality`: `attempt_count` has no
`"rate"`, so the flag means value-above-threshold. -/
theorem is_anomalous_directionality_witness :
    containsStr "rate" "attempt_count" = false
    ∧ ((false : Bool) = true
        ↔ resolvedThreshold (initBaselines 1000) "rach" "attempt_count" < ((3 : ℚ) : ℝ)) := by
  have h := (is_anomalous_directionality (initBaselines 1000) "rach" "attempt_count"
    3 1 _ eval_rach_attempt).2.2 (by decide)
  exact ⟨by decide, h⟩

/-- C8 counterexample: the metric name `success_count` contains
`"success"` but not `"rate"`; the code flags value 2 as anomalous
because it is *above* the resolved threshold 1, while the claim
("contains `success` ⇒ anomalous exactly when below threshold") demands
it not be flagged. -/
theorem is_anomalous_directionality_counterexample :
    containsStr "success" "success_count" = true
    ∧ resolvedThreshold (initBaselines 1000) "rach" "success_count" = 1
    ∧ Except.map (fun r => r.1)
        (is_anomalous (initBaselines 1000) "rach" "success_count" 2 1) = .ok true
    ∧ ¬ ((2 : ℚ) : ℝ) < 1 := by
  have hbind : (lookupA (initBaselines 1000) "rach").bind
      (fun ms => lookupA ms "success_count") = none := by decide
  have hga : get_adaptive_threshold (initBaselines 1000) "rach" "success_count" 2
      = none := by
    rw [get_adaptive_threshold_eq, hbind]
  have hth : resolvedThreshold (initBaselines 1000) "rach" "success_count" = 1 := by
    rw [resolvedThreshold, hga]
    dsimp only
    rw [(by decide : fallbackDefault "success_count" = 1)]
    norm_num
  have hflag : anomFlag (initBaselines 1000) "rach" "success_count" 2 = true := by
    rw [anomFlag]
    simp only [hth]
    rw [(by decide : containsStr "rate" "success_count" = false)]
    rw [if_neg (by simp)]
    exact decide_eq_true (by norm_num)
  refine ⟨by decide, hth, ?_, by norm_num⟩
  rw [is_anomalous_ok' _ _ _ _ _ (by decide), exceptMap_ok, hflag]

/-! ## ML ensemble scorer (`ml_anomaly_detection.py`) -/

/-- One anomaly record of `run_ml_ensemble_analysis` (window index and
`confidence = votes / 4.0`; the duplicated feature fields are owned by
the feature vector and not re-modelled). -/
structure EnsembleAnomaly where
  window_index : ℕ
  confidence : ℚ
  deriving DecidableEq, Repr

/-- The vote count of one window over the four detector predictions
(isolation forest, one-class SVM, DBSCAN, LOF); `-1` marks an outlier. -/
def voteCount (p : ℤ × ℤ × ℤ × ℤ) : ℕ :=
  (if p.1 = -1 then 1 else 0) + (if p.2.1 = -1 then 1 else 0)
  + (if p.2.2.1 = -1 then 1 else 0) + (if p.2.2.2 = -1 then 1 else 0)

/-- The voting loop of `run_ml_ensemble_analysis` (lines 462-503): one
anomaly record per window with `votes ≥ 1`. -/
def ensembleAnomalies (preds : List (ℤ × ℤ × ℤ × ℤ)) : List EnsembleAnomaly :=
  preds.enum.filterMap (fun ip =>
    if 1 ≤ voteCount ip.2 then some ⟨ip.1, (voteCount ip.2 : ℚ) / 4⟩ else none)

lemma mem_ensembleAnomalies (preds : List (ℤ × ℤ × ℤ × ℤ)) (a : EnsembleAnomaly) :
    a ∈ ensembleAnomalies preds
      ↔ ∃ i p, preds[i]? = some p ∧ 1 ≤ voteCount p
          ∧ a = ⟨i, (voteCount p : ℚ) / 4⟩ := by
  rw [ensembleAnomalies, List.mem_filterMap]
  constructor
  · rintro ⟨⟨i, p⟩, hmem, hf⟩
    rw [List.mk_mem_enum_iff_getElem?] at hmem
    by_cases hv : 1 ≤ voteCount p
    · rw [if_pos hv] at hf
      exact ⟨i, p, hmem, hv, (Option.some.inj hf).symm⟩
    · rw [if_neg hv] at hf
      exact absurd hf (by simp)
  · rintro ⟨i, p, hget, hv, rfl⟩
    refine ⟨(i, p), List.mk_mem_enum_iff_getElem?.mpr hget, ?_⟩
    rw [if_pos hv]

/-- C4: every window's vote count lies in `[0, 4]`; an anomaly record
exists for window `i` exactly when that window collected at least one
vote; and every emitted record's confidence is exactly `votes / 4`. -/
theorem ensemble_votes_spec (preds : List (ℤ × ℤ × ℤ × ℤ)) :
    (∀ p ∈ preds, voteCount p ≤ 4)
    ∧ (∀ i, i < preds.length →
        ((∃ a ∈ ensembleAnomalies preds, a.window_index = i)
          ↔ 1 ≤ voteCount (preds.getD i default)))
    ∧ (∀ a ∈ ensembleAnomalies preds,
        a.confidence = (voteCount (preds.getD a.window_index default) : ℚ) / 4
        ∧ 1 ≤ voteCount (preds.getD a.window_index default)) := by
  refine ⟨?_, ?_, ?_⟩
  · intro p _
    rw [voteCount]
    split_ifs <;> norm_num
  · intro i hi
    have hg : preds[i]? = some (preds.getD i default) := by
      rw [List.getD_eq_getElem?_getD, List.getElem?_eq_getElem hi]
      rfl
    constructor
    · rintro ⟨a, ha, hwin⟩
      rcases (mem_ensembleAnomalies preds a).mp ha with ⟨j, p, hget, hv, rfl⟩
      have : j = i := hwin
      rw [this] at hget
      rw [hg] at hget
      rw [Option.some.inj hget]
      exact hv
    · intro hv
      refine ⟨⟨i, (voteCount (preds.getD i default) : ℚ) / 4⟩, ?_, rfl⟩
      exact (mem_ensembleAnomalies preds _).mpr ⟨i, _, hg, hv, rfl⟩
  · intro a ha
    rcases (mem_ensembleAnomalies preds a).mp ha with ⟨j, p, hget, hv, rfl⟩
    have hj : j < preds.length := by
      by_contra hge
      rw [List.getElem?_eq_none (by omega)] at hget
      exact Option.noConfusion hget
    have hg : preds.getD j default = p := by
      rw [List.getD_eq_getElem?_getD, hget]
      rfl
    exact ⟨by rw [hg], by rw [hg]; exact hv⟩

/-- Witness for `ensemble_votes_spec` on a two-window batch in which
only the first window receives a (single) vote. -/
theorem ensemble_votes_spec_witness :
    voteCount (-1, 1, 1, 1) ≤ 4
    ∧ (∃ a ∈ ensembleAnomalies [(-1, 1, 1, 1), (1, 1, 1, 1)], a.window_index = 0) := by
  have h := ensemble_votes_spec [(-1, 1, 1, 1), (1, 1, 1, 1)]
  exact ⟨h.1 _ (by simp), (h.2.1 0 (by norm_num)).mpr (by decide)⟩

/-- The incremental-learning state of `MLAnomalyDetector`:
`metadata['files_processed']`, the accumulated-feature store
(`accumulated_features.npy`), and what the persisted models were last
fit on (`none` = never retrained). -/
structure MLState where
  files_processed : ℕ
  store : List (List ℚ)
  fitted : Option (List (List ℚ))
  deriving DecidableEq, Repr

/-- The incremental-learning prefix of `run_ml_ensemble_analysis`
(lines 417-428) together with `retrain_models`: append the batch to the
store, increment the counter, and on reaching the threshold refit on
the entire accumulated history, delete the store and reset the counter. -/
def runEnsembleStep (T : ℕ) (s : MLState) (feats : List (List ℚ)) : MLState :=
  let store1 := s.store ++ feats
  let fp1 := s.files_processed + 1
  if T ≤ fp1 then ⟨0, [], some store1⟩
  else ⟨fp1, store1, s.fitted⟩

/-- C5: starting below the retrain threshold, an invocation that makes
the counter reach the threshold refits the models on the entire
accumulated history, empties the store and resets the counter to 0
before completing; any other invocation just appends and increments,
and the counter always stays below the threshold. -/
theorem retrain_boundary (T : ℕ) (s : MLState) (feats : List (List ℚ))
    (hT : 1 ≤ T) (hs : s.files_processed < T) :
    (s.files_processed + 1 = T →
      (runEnsembleStep T s feats).files_processed = 0
      ∧ (runEnsembleStep T s feats).store = []
      ∧ (runEnsembleStep T s feats).fitted = some (s.store ++ feats))
    ∧ (s.files_processed + 1 < T →
      (runEnsembleStep T s feats).files_processed = s.files_processed + 1
      ∧ (runEnsembleStep T s feats).store = s.store ++ feats
      ∧ (runEnsembleStep T s feats).fitted = s.fitted)
    ∧ (runEnsembleStep T s feats).files_processed < T := by
  rw [runEnsembleStep]
  split_ifs with hcond
  · refine ⟨fun _ => ⟨rfl, rfl, rfl⟩, fun hlt => absurd hcond (by omega), ?_⟩
    show (0 : ℕ) < T
    omega
  · refine ⟨fun heq => absurd hcond (by omega), fun _ => ⟨rfl, rfl, rfl⟩, ?_⟩
    show s.files_processed + 1 < T
    omega

/-- Witness for `retrain_boundary`: the default threshold 10, counter
at 9, one more batch triggers the retrain-and-reset. -/
theorem retrain_boundary_witness :
    (runEnsembleStep 10 ⟨9, [[1]], none⟩ [[2]]).files_processed = 0
    ∧ (runEnsembleStep 10 ⟨9, [[1]], none⟩ [[2]]).store = []
    ∧ (runEnsembleStep 10 ⟨9, [[1]], none⟩ [[2]]).fitted = some [[1], [2]]
    ∧ (runEnsembleStep 10 ⟨9, [[1]], none⟩ [[2]]).files_processed < 10 := by
  have h := retrain_boundary 10 ⟨9, [[1]], none⟩ [[2]] (by norm_num) (by norm_num)
  have h1 := h.1 (by norm_num)
  exact ⟨h1.1, h1.2.1, h1.2.2, h.2.2⟩

/-! ## Temporal pattern analyzer (`temporal_pattern_analyzer.py`) -/

/-- The result dictionary of `analyze_event_rate`; a field is `none`
when the corresponding key is absent from the returned dict (the
short-circuit branches return partial dicts). -/
structure RateResult where
  rate : Option ℚ
  overall_rate : Option ℚ
  max_window_rate : Option ℚ
  avg_window_rate : Option ℚ
  burst_detected : Bool
  burst_severity : Option String
  total_events : Option ℕ
  duration : Option ℚ

/-- The per-start-event window rates of `analyze_event_rate`: for each
`i < n - 1`, the number of events in `[t_i, t_i + W)` divided by `W`. -/
def windowRates (W : ℚ) (sorted : List ℚ) : List ℚ :=
  (List.range (sorted.length - 1)).map (fun i =>
    ((sorted.countP (fun t =>
      decide (sorted.getD i 0 ≤ t ∧ t < sorted.getD i 0 + W))) : ℚ) / W)

/-- Python `max` over a list (left fold). -/
def maxQ (l : List ℚ) : ℚ := l.foldl max (l.headD 0)

open scoped Classical in
/-- `TemporalPatternAnalyzer.analyze_event_rate`. -/
noncomputable def analyze_event_rate (W : ℚ) (ts : List ℚ) : RateResult :=
  if ts.length < 2 then ⟨some 0, none, none, none, false, none, none, none⟩
  else
    let sorted := List.insertionSort (· ≤ ·) ts
    let duration := sorted.getLastD 0 - sorted.headD 0
    if duration = 0 then
      ⟨some (ts.length : ℚ), none, none, none, true, some "high", none, none⟩
    else
      let overall : ℚ := (ts.length : ℚ) / duration
      let wr := windowRates W sorted
      if 0 < wr.length then
        let maxR := maxQ wr
        let avgR := meanQ wr
        let burst : Bool :=
          if 0 < npStd wr then decide ((avgR : ℝ) + 2 * npStd wr < (maxR : ℝ))
          else false
        let ratio : ℚ := if 0 < avgR then maxR / avgR else 1
        let sev : String :=
          if burst then
            if 5 < ratio then "critical"
            else if 3 < ratio then "high"
            else if 2 < ratio then "medium"
            else "low"
          else "none"
        ⟨none, some overall, some maxR, some avgR, burst, some sev,
         some ts.length, some duration⟩
      else
        ⟨none, some overall, some overall, some overall, false, some "none",
         some ts.length, some duration⟩

lemma const_getLastD (l : List ℚ) (c d : ℚ) (h : ∀ x ∈ l, x = c) (hne : l ≠ []) :
    l.getLastD d = c := by
  induction l generalizing d with
  | nil => exact absurd rfl hne
  | cons a t ih =>
    cases t with
    | nil => simpa using h a (by simp)
    | cons b t2 =>
      rw [List.getLastD_cons]
      exact ih a (fun x hx => h x (by simp [hx])) (by simp)

/-- C7 (amended): a list of at least two event timestamps that all
coincide (span 0) is reported as a burst of severity `high`; 20 events
within a positive span smaller than one window duration need not be a
burst (the condition is `max window rate > mean + 2·std`): see the
counterexample. -/
theorem burst_on_equal_timestamps (W : ℚ) (ts : List ℚ) (c : ℚ)
    (h2 : 2 ≤ ts.length) (hc : ∀ t ∈ ts, t = c) :
    (analyze_event_rate W ts).burst_detected = true
    ∧ (analyze_event_rate W ts).burst_severity = some "high" := by
  have hperm := List.perm_insertionSort (· ≤ ·) ts
  have hmem : ∀ x ∈ List.insertionSort (· ≤ ·) ts, x = c :=
    fun x hx => hc x (hperm.mem_iff.mp hx)
  have hne : List.insertionSort (· ≤ ·) ts ≠ [] := by
    intro hnil
    have hlen := hperm.length_eq
    rw [hnil] at hlen
    simp at hlen
    omega
  have hhead : (List.insertionSort (· ≤ ·) ts).headD 0 = c := by
    rcases hs : List.insertionSort (· ≤ ·) ts with _ | ⟨a, t⟩
    · exact absurd hs hne
    · have ha : a = c := hmem a (by rw [hs]; simp)
      simp [ha]
  have hlast : (List.insertionSort (· ≤ ·) ts).getLastD 0 = c :=
    const_getLastD _ c 0 hmem hne
  rw [analyze_event_rate, if_neg (by omega)]
  dsimp only
  rw [hlast, hhead, sub_self, if_pos rfl]
  exact ⟨rfl, rfl⟩

/-- Witness for `burst_on_equal_timestamps`: two simultaneous events. -/
theorem burst_on_equal_timestamps_witness :
    (analyze_event_rate 10 [5, 5]).burst_detected = true
    ∧ (analyze_event_rate 10 [5, 5]).burst_severity = some "high" :=
  burst_on_equal_timestamps 10 [5, 5] 5 (by norm_num)
    (by intro t ht; fin_cases ht <;> rfl)

/-- 20 event timestamps within a span of 9 seconds (smaller than the
10-second window duration). -/
def ts20 : List ℚ := [0, 0, 1, 1, 2, 2, 3, 3, 4, 4, 5, 5, 6, 6, 7, 7, 8, 8, 9, 9]

/-- C7 counterexample: these 20 timestamps all lie within a span (9 s)
smaller than one window duration (10 s), yet `analyze_event_rate`
reports no burst: the max window rate 2.0 does not exceed
`mean + 2·std = 109/95 + 2·√(546/1805) ≈ 2.25`. -/
theorem burst_counterexample :
    ts20.length = 20
    ∧ (∀ t ∈ ts20, 0 ≤ t ∧ t ≤ 9)
    ∧ (9 : ℚ) - 0 < 10
    ∧ (analyze_event_rate 10 ts20).burst_detected = false := by
  have hsorted : List.Sorted (· ≤ ·) ts20 := by
    rw [ts20]
    norm_num [List.sorted_cons]
  have hs : List.insertionSort (· ≤ ·) ts20 = ts20 := hsorted.insertionSort_eq
  have hwr : windowRates 10 ts20
      = [2, 2, 9/5, 9/5, 8/5, 8/5, 7/5, 7/5, 6/5, 6/5, 1, 1, 4/5, 4/5, 3/5, 3/5,
         2/5, 2/5, 1/5] := by
    rw [windowRates, ts20]
    norm_num [List.range_succ, List.countP_cons, List.countP_nil,
      decide_eq_true_eq]
  have hmax : maxQ (windowRates 10 ts20) = 2 := by
    rw [hwr, maxQ]
    norm_num [List.foldl_cons, List.foldl_nil, max_def]
  have hmean : meanQ (windowRates 10 ts20) = 109/95 := by
    rw [hwr, meanQ]
    norm_num [List.sum_cons, List.sum_nil]
  have hvar : varQ (windowRates 10 ts20) = 546/1805 := by
    rw [hwr, varQ, ← hwr, hmean, hwr]
    norm_num [List.map_cons, List.map_nil, List.sum_cons, List.sum_nil]
  have hstdpos : 0 < npStd (windowRates 10 ts20) := by
    rw [npStd, hvar]
    apply Real.sqrt_pos.mpr
    push_cast
    norm_num
  have hnoburst : ¬ ((meanQ (windowRates 10 ts20) : ℝ)
      + 2 * npStd (windowRates 10 ts20) < (maxQ (windowRates 10 ts20) : ℝ)) := by
    rw [hmean, hmax, npStd, hvar]
    intro hlt
    have hsq : (81/190 : ℝ) ≤ Real.sqrt ((546/1805 : ℚ) : ℝ) := by
      rw [Real.le_sqrt' (by norm_num)]
      push_cast
      norm_num
    push_cast at hlt
    linarith
  refine ⟨by rw [ts20]; rfl, ?_, by norm_num, ?_⟩
  · intro t ht
    rw [ts20] at ht
    fin_cases ht <;> norm_num
  · rw [analyze_event_rate, if_neg (by rw [ts20]; norm_num)]
    dsimp only
    rw [hs]
    rw [show ts20.getLastD 0 - ts20.headD 0 = 9 from by
      rw [show ts20.getLastD 0 = (9 : ℚ) from rfl, show ts20.headD 0 = (0 : ℚ) from rfl]
      norm_num]
    rw [if_neg (by norm_num : ¬ (9 : ℚ) = 0)]
    rw [if_pos (by rw [hwr]; norm_num)]
    show (if 0 < npStd (windowRates 10 ts20)
      then decide ((meanQ (windowRates 10 ts20) : ℝ)
        + 2 * npStd (windowRates 10 ts20) < (maxQ (windowRates 10 ts20) : ℝ))
      else false) = false
    rw [if_pos hstdpos]
    exact decide_eq_false hnoburst

/-! ## Protocol indicator extractor (`enhanced_protocol_parser.py`) and
the seven category detectors (`folder_anomaly_analyzer_clickhouse.py`) -/

/-- A capture packet as the detectors see it: Raw-layer payload bytes,
a capture timestamp, and the IP-layer id used by
`detect_sequence_anomalies`. -/
structure RPkt where
  hasRaw : Bool
  payload : List ℕ
  time : ℚ
  hasIP : Bool
  ipId : ℤ

/-- `EnhancedProtocolParser.extract_l1_indicators`' result (pattern
branch, used for capture packets without a QXDM message id). -/
structure L1Ind where
  has_rach : Bool
  has_handover : Bool
  has_harq : Bool
  has_crc : Bool
  has_rrc : Bool
  has_timing_advance : Bool
  has_power_control : Bool
  error_indicators : List String
  failure_indicators : List String

/-- Whether any of the byte patterns occurs in the payload (the
`for pattern in ...: if pattern in payload_lower: ...; break` loops). -/
def anyPat (pats : List (List ℕ)) (pl : List ℕ) : Bool :=
  pats.any (fun p => containsSub p pl)

/-- `EnhancedProtocolParser.extract_l1_indicators` (keyword branch). -/
def extract_l1_indicators (payload : List ℕ) : L1Ind :=
  let pl := bytesLower payload
  let errs := (["error", "fail", "reject", "timeout", "violation", "invalid"]).filter
    (fun p => containsSub (strBytes p) pl)
  { has_rach := anyPat [strBytes "rach", strBytes "prach", strBytes "preamble"] pl
    has_handover := anyPat [strBytes "handover", strBytes "ho_", strBytes "mobility"] pl
    has_harq := anyPat [strBytes "harq", strBytes "retx", strBytes "nack",
      strBytes "ack"] pl
    has_crc := anyPat [strBytes "crc", strBytes "checksum", strBytes "fcs"] pl
    has_rrc := anyPat [strBytes "rrc", strBytes "connection", strBytes "setup",
      strBytes "release"] pl
    has_timing_advance := anyPat [strBytes "ta", strBytes "timingadvance",
      strBytes "timing"] pl
    has_power_control := anyPat [strBytes "tpc", strBytes "powercontrol",
      strBytes "power"] pl
    error_indicators := errs
    failure_indicators := if 0 < errs.length then errs else [] }

/-- `numpy.diff`. -/
def diffsQ (l : List ℚ) : List ℚ :=
  List.zipWith (fun a b => b - a) l l.tail

/-- Python `min` over a list (left fold). -/
def minQ (l : List ℚ) : ℚ := l.foldl min (l.headD 0)

/-- `EnhancedProtocolParser.extract_timing_features`' result. -/
structure TimingFeatures where
  mean_inter_arrival : ℚ
  std_inter_arrival : ℝ
  min_inter_arrival : ℚ
  max_inter_arrival : ℚ
  jitter : ℝ
  total_duration : ℚ
  packet_rate : ℚ

/-- `EnhancedProtocolParser.extract_timing_features`: `none` models the
empty dict returned for fewer than two packets. -/
noncomputable def extract_timing_features (pkts : List RPkt) : Option TimingFeatures :=
  if pkts.length < 2 then none
  else
    let tsL := pkts.map RPkt.time
    if tsL.length < 2 then none
    else
      let d := diffsQ tsL
      some ⟨meanQ d, npStd d, minQ d, maxQ d, npStd d,
        tsL.getLastD 0 - tsL.headD 0,
        if tsL.headD 0 < tsL.getLastD 0
          then (pkts.length : ℚ) / (tsL.getLastD 0 - tsL.headD 0) else 0⟩

/-- One record of `detect_sequence_anomalies`. -/
structure SeqAnom where
  typ : String
  packet_index : ℕ
  severity : String

/-- `EnhancedProtocolParser.detect_sequence_anomalies` on the IP-layer
id sequence. -/
def detect_sequence_anomalies (pkts : List RPkt) : List SeqAnom :=
  if pkts.length < 2 then []
  else
    let seqs := (pkts.enum.filter (fun ip => ip.2.hasIP)).map
      (fun ip => (ip.1, ip.2.ipId))
    if seqs.length < 2 then []
    else
      (List.zip seqs seqs.tail).filterMap (fun pr =>
        let gap := pr.2.2 - pr.1.2
        if 10 < gap then
          some ⟨"sequence_gap", pr.2.1, if 100 < gap then "high" else "medium"⟩
        else if gap = 0 then some ⟨"sequence_duplicate", pr.2.1, "medium"⟩
        else if gap < 0 then some ⟨"sequence_out_of_order", pr.2.1, "low"⟩
        else none)

/-- One anomaly record emitted by a category detector (its evidence
strings are presentation-only and not modelled). -/
structure DetAnom where
  packet_number : ℕ
  anomaly_type : String
  confidence : ℝ

/-- A detector's running result: the (possibly updated) tracker and the
records accumulated so far.  An `Except.error` carries the state at the
moment a Python exception would be raised; the detector's `try/except`
turns it into a normal return. -/
def DetSt := Baselines × List DetAnom

/-- Collapse a caught exception to its carried state (`try/except`). -/
def unExcept {α : Type} : Except α α → α
  | .ok x => x
  | .error x => x

/-- Python slice `packets[max(0, i - a) : i + b]`. -/
def sliceAround (pkts : List RPkt) (i a b : ℕ) : List RPkt :=
  (pkts.drop (i - a)).take (i + b - (i - a))

open scoped Classical in
/-- Loop body of `detect_rach_failures` for one enumerated packet. -/
noncomputable def rachLoopStep (b : Baselines) (pkts : List RPkt)
    (acc : ℕ × ℕ × List ℚ × List DetAnom) (ip : ℕ × RPkt) :
    Except DetSt (ℕ × ℕ × List ℚ × List DetAnom) :=
  if ip.2.hasRaw then
    let ind := extract_l1_indicators ip.2.payload
    if ind.has_rach then
      let attempts := acc.1 + 1
      let tss := acc.2.2.1 ++ [ip.2.time]
      if 0 < ind.failure_indicators.length then
        let failures := acc.2.1 + 1
        let ps : ℝ := (ind.failure_indicators.length : ℝ) / 3
        let tf := extract_timing_features (sliceAround pkts ip.1 5 5)
        let temporal : ℝ := match tf with
          | none => 1/2
          | some t => 1/2 + (if (1/10 : ℝ) < t.jitter then (1/5 : ℝ) else 0)
              + (if (1 : ℚ) < t.max_inter_arrival then (3/10 : ℝ) else 0)
        match is_anomalous b "rach" "attempt_count" (failures : ℚ) 1 with
        | .error _ => .error (b, acc.2.2.2)
        | .ok r =>
          let bd : ℝ := if r.1 then r.2.1 else 1/2
          let conf : ℝ := min (ps * (2/5) + temporal * (3/10) + bd * (3/10)) 1
          .ok (attempts, failures, tss,
            acc.2.2.2 ++ [⟨ip.1 + 1, "RACH Failure", max conf (7/10)⟩])
      else .ok (attempts, acc.2.1, tss, acc.2.2.2)
    else .ok acc
  else .ok acc

/-- The `or`-fallback on a possibly-`None`, possibly-zero threshold
(Python `x or d`). -/
noncomputable def orThreshold (t : Option ℝ) (d : ℝ) : ℝ :=
  match t with
  | none => d
  | some v => if v = 0 then d else v

open scoped Classical in
/-- Body of `detect_rach_failures` (inside its `try`). -/
noncomputable def detect_rach_failuresE (b : Baselines) (pkts : List RPkt) :
    Except DetSt DetSt := do
  let acc ← pkts.enum.foldlM (rachLoopStep b pkts) (0, 0, [], [])
  let attempts := acc.1
  let failures := acc.2.1
  let tss := acc.2.2.1
  let anoms := acc.2.2.2
  let b1 := update_baseline b "rach" "attempt_count" (attempts : ℚ)
  let b2 := if 0 < attempts then
      update_baseline b1 "rach" "success_rate" (1 - (failures : ℚ) / (attempts : ℚ))
    else b1
  let anoms2 ←
    if 3 ≤ tss.length then
      let ta := analyze_event_rate 10 tss
      if ta.burst_detected then
        match ta.burst_severity, ta.max_window_rate, ta.avg_window_rate,
            ta.total_events, ta.duration with
        | some sev, some _, some _, some _, some _ =>
          let conf : ℝ := if sev = "critical" then 19/20
            else if sev = "high" then 17/20
            else if sev = "medium" then 3/4
            else if sev = "low" then 13/20 else 7/10
          pure (anoms ++ [⟨1, "RACH Burst Pattern", conf⟩])
        | _, _, _, _, _ => throw (b2, anoms)
      else pure anoms
    else pure anoms
  let thr := orThreshold (get_adaptive_threshold b2 "rach" "attempt_count" 2) 10
  if thr < ((attempts : ℚ) : ℝ) then
    match is_anomalous b2 "rach" "attempt_count" (attempts : ℚ) 1 with
    | .error _ => throw (b2, anoms2)
    | .ok r =>
      pure (b2, anoms2 ++ [⟨1, "Excessive RACH Attempts",
        min ((13 : ℝ)/20 + r.2.1 * (3/10)) (19/20)⟩])
  else pure (b2, anoms2)

/-- `detect_rach_failures` with its `try/except`: an exception yields
the records accumulated so far. -/
noncomputable def detect_rach_failures (b : Baselines) (pkts : List RPkt) : DetSt :=
  unExcept (detect_rach_failuresE b pkts)

open scoped Classical in
/-- Loop body of `detect_handover_failures` for one enumerated packet. -/
noncomputable def handoverLoopStep (b : Baselines) (pkts : List RPkt)
    (acc : ℕ × ℕ × List ℚ × List DetAnom) (ip : ℕ × RPkt) :
    Except DetSt (ℕ × ℕ × List ℚ × List DetAnom) :=
  if ip.2.hasRaw then
    let ind := extract_l1_indicators ip.2.payload
    if ind.has_handover then
      let attempts := acc.1 + 1
      let tss := acc.2.2.1 ++ [ip.2.time]
      if 0 < ind.failure_indicators.length then
        let ps : ℝ := min ((ind.failure_indicators.length : ℝ) / 2) 1
        let seqAn := detect_sequence_anomalies (sliceAround pkts ip.1 10 10)
        let seqScore : ℝ :=
          if 0 < seqAn.length then min ((seqAn.length : ℝ) / 5) 1 else 3/10
        match is_anomalous b "handover" "success_rate" 0 1 with
        | .error _ => .error (b, acc.2.2.2)
        | .ok r =>
          let bd : ℝ := if r.1 then r.2.1 else 1/2
          let conf : ℝ := min (ps * (1/2) + seqScore * (1/5) + bd * (3/10)) 1
          .ok (attempts, acc.2.1 + 1, tss,
            acc.2.2.2 ++ [⟨ip.1 + 1, "Handover Failure", max conf (3/4)⟩])
      else .ok (attempts, acc.2.1, tss, acc.2.2.2)
    else .ok acc
  else .ok acc

open scoped Classical in
/-- Body of `detect_handover_failures` (inside its `try`). -/
noncomputable def detect_handover_failuresE (b : Baselines) (pkts : List RPkt) :
    Except DetSt DetSt := do
  let acc ← pkts.enum.foldlM (handoverLoopStep b pkts) (0, 0, [], [])
  let attempts := acc.1
  let failures := acc.2.1
  let anoms := acc.2.2.2
  let b1 := update_baseline b "handover" "attempt_count" (attempts : ℚ)
  if 0 < attempts then
    let sr : ℚ := 1 - (failures : ℚ) / (attempts : ℚ)
    let b2 := update_baseline b1 "handover" "success_rate" sr
    match is_anomalous b2 "handover" "success_rate" sr 1 with
    | .error _ => throw (b2, anoms)
    | .ok r =>
      if r.1 = true ∧ sr < 17/20 then
        pure (b2, anoms ++ [⟨1, "Low Handover Success Rate",
          min ((7 : ℝ)/10 + r.2.1 * (1/4)) (19/20)⟩])
      else pure (b2, anoms)
  else pure (b1, anoms)

/-- `detect_handover_failures` with its `try/except`. -/
noncomputable def detect_handover_failures (b : Baselines) (pkts : List RPkt) :
    DetSt :=
  unExcept (detect_handover_failuresE b pkts)

/-- Loop body of `detect_harq_retransmissions`: accumulates
`(retransmission_count, total_harq_packets, retx_timestamps,
consecutive_retx, max_consecutive)`. -/
def harqLoopStep (acc : ℕ × ℕ × List ℚ × ℕ × ℕ) (pkt : RPkt) :
    ℕ × ℕ × List ℚ × ℕ × ℕ :=
  if pkt.hasRaw then
    let ind := extract_l1_indicators pkt.payload
    if ind.has_harq then
      let total := acc.2.1 + 1
      let isRetx := containsSub (strBytes "retx") (bytesLower pkt.payload)
        || containsSub (strBytes "nack") (bytesLower pkt.payload)
      if isRetx then
        let consec := acc.2.2.2.1 + 1
        (acc.1 + 1, total, acc.2.2.1 ++ [pkt.time], consec, max acc.2.2.2.2 consec)
      else (acc.1, total, acc.2.2.1, 0, acc.2.2.2.2)
    else acc
  else acc

open scoped Classical in
/-- Body of `detect_harq_retransmissions` (inside its `try`). -/
noncomputable def detect_harq_retransmissionsE (b : Baselines) (pkts : List RPkt) :
    Except DetSt DetSt := do
  let acc := pkts.foldl harqLoopStep (0, 0, [], 0, 0)
  let retx := acc.1
  let total := acc.2.1
  let rts := acc.2.2.1
  let maxConsec := acc.2.2.2.2
  if 0 < total then
    let rate : ℚ := (retx : ℚ) / (total : ℚ)
    let b1 := update_baseline b "harq" "retransmission_rate" rate
    let b2 := update_baseline b1 "harq" "max_consecutive_retx" (maxConsec : ℚ)
    match is_anomalous b2 "harq" "retransmission_rate" rate 1 with
    | .error _ => throw (b2, [])
    | .ok r =>
      let thr := orThreshold
        (get_adaptive_threshold b2 "harq" "retransmission_rate" 2) (3/20)
      let anoms1 : List DetAnom :=
        if thr < (rate : ℝ) ∨ 3 < maxConsec then
          let temporal : ℝ := if 3 ≤ rts.length then
              (if (analyze_event_rate 10 rts).burst_detected then 9/10 else 1/2)
            else 1/2
          [⟨1, "Excessive HARQ Retransmissions",
            max (min (r.2.1 * (2/5) + temporal * (2/5) + 1/5) 1) (7/10)⟩]
        else []
      let anoms2 := if 5 ≤ maxConsec then
          anoms1 ++ [⟨1, "HARQ Retransmission Burst", 17/20⟩]
        else anoms1
      pure (b2, anoms2)
  else pure (b, [])

/-- `detect_harq_retransmissions` with its `try/except`. -/
noncomputable def detect_harq_retransmissions (b : Baselines) (pkts : List RPkt) :
    DetSt :=
  unExcept (detect_harq_retransmissionsE b pkts)

open scoped Classical in
/-- Loop body of `detect_crc_errors`: accumulates
`(crc_errors, total_packets_checked, crc_error_timestamps, anomalies)`. -/
noncomputable def crcLoopStep (acc : ℕ × ℕ × List ℚ × List DetAnom)
    (ip : ℕ × RPkt) : ℕ × ℕ × List ℚ × List DetAnom :=
  if ip.2.hasRaw then
    let ind := extract_l1_indicators ip.2.payload
    if ind.has_crc then
      let checked := acc.2.1 + 1
      let hasErr := containsSub (strBytes "error") (bytesLower ip.2.payload)
        || containsSub (strBytes "fail") (bytesLower ip.2.payload)
      if hasErr then
        let ps : ℝ := if 0 < ind.error_indicators.length then
            min (((ind.error_indicators.filter
              (fun x => containsStr "crc" x)).length : ℝ) / 2) 1
          else 4/5
        (acc.1 + 1, checked, acc.2.2.1 ++ [ip.2.time],
         acc.2.2.2 ++ [⟨ip.1 + 1, "CRC Error", max ps (17/20)⟩])
      else (acc.1, checked, acc.2.2.1, acc.2.2.2)
    else acc
  else acc

open scoped Classical in
/-- Body of `detect_crc_errors` (inside its `try`). -/
noncomputable def detect_crc_errorsE (b : Baselines) (pkts : List RPkt) :
    Except DetSt DetSt := do
  let acc := pkts.enum.foldl crcLoopStep (0, 0, [], [])
  let errors := acc.1
  let checked := acc.2.1
  let ets := acc.2.2.1
  let anoms := acc.2.2.2
  if 100 < checked then
    let rate : ℚ := (errors : ℚ) / (checked : ℚ)
    let per1000 : ℚ := ((errors : ℚ) / (checked : ℚ)) * 1000
    let b1 := update_baseline b "crc" "error_rate" rate
    let b2 := update_baseline b1 "crc" "errors_per_1000_packets" per1000
    match is_anomalous b2 "crc" "error_rate" rate 1 with
    | .error _ => throw (b2, anoms)
    | .ok r =>
      if r.1 = true ∨ (1/100 : ℚ) < rate then
        let temporal : ℝ := if 3 ≤ ets.length then
            (if (analyze_event_rate 10 ets).burst_detected then 9/10 else 1/2)
          else 1/2
        pure (b2, anoms ++ [⟨1, "High CRC Error Rate",
          max (min (r.2.1 * (1/2) + temporal * (2/5) + 1/10) 1) (3/4)⟩])
      else pure (b2, anoms)
  else pure (b, anoms)

/-- `detect_crc_errors` with its `try/except`. -/
noncomputable def detect_crc_errors (b : Baselines) (pkts : List RPkt) : DetSt :=
  unExcept (detect_crc_errorsE b pkts)

open scoped Classical in
/-- Loop body of `detect_rrc_connection_failures`: accumulates
`(rrc_attempts, rrc_failures, rrc_failure_timestamps, anomalies)`.
The setup/failure keyword tests are case-sensitive on the raw payload. -/
noncomputable def rrcLoopStep (pkts : List RPkt)
    (acc : ℕ × ℕ × List ℚ × List DetAnom) (ip : ℕ × RPkt) :
    ℕ × ℕ × List ℚ × List DetAnom :=
  if ip.2.hasRaw then
    let ind := extract_l1_indicators ip.2.payload
    if ind.has_rrc then
      let isSetup := containsSub (strBytes "Connect") ip.2.payload
        || containsSub (strBytes "Setup") ip.2.payload
      let isFailure := containsSub (strBytes "Reject") ip.2.payload
        || containsSub (strBytes "Fail") ip.2.payload
      let attempts := if isSetup then acc.1 + 1 else acc.1
      if isFailure then
        let ps : ℝ := min ((ind.failure_indicators.length : ℝ) / 2) 1
        let seqAn := detect_sequence_anomalies (sliceAround pkts ip.1 5 5)
        let seqScore : ℝ := 3/10 + min ((seqAn.length : ℝ) / 3) (1/2)
        let conf : ℝ := min (ps * (1/2) + seqScore * (1/2)) 1
        (attempts, acc.2.1 + 1, acc.2.2.1 ++ [ip.2.time],
         acc.2.2.2 ++ [⟨ip.1 + 1, "RRC Connection Failure", max conf (4/5)⟩])
      else (attempts, acc.2.1, acc.2.2.1, acc.2.2.2)
    else acc
  else acc

open scoped Classical in
/-- Body of `detect_rrc_connection_failures` (inside its `try`). -/
noncomputable def detect_rrc_connection_failuresE (b : Baselines)
    (pkts : List RPkt) : Except DetSt DetSt := do
  let acc := pkts.enum.foldl (rrcLoopStep pkts) (0, 0, [], [])
  let attempts := acc.1
  let failures := acc.2.1
  let anoms := acc.2.2.2
  if 0 < attempts then
    let sr : ℚ := 1 - (failures : ℚ) / (attempts : ℚ)
    let b1 := update_baseline b "rrc" "connection_success_rate" sr
    let b2 := update_baseline b1 "rrc" "setup_attempts" (attempts : ℚ)
    match is_anomalous b2 "rrc" "connection_success_rate" sr 1 with
    | .error _ => throw (b2, anoms)
    | .ok r =>
      if r.1 = true ∧ sr < 9/10 then
        pure (b2, anoms ++ [⟨1, "Low RRC Connection Success Rate",
          min ((3 : ℝ)/4 + r.2.1 * (1/5)) (19/20)⟩])
      else pure (b2, anoms)
  else pure (b, anoms)

/-- `detect_rrc_connection_failures` with its `try/except`. -/
noncomputable def detect_rrc_connection_failures (b : Baselines)
    (pkts : List RPkt) : DetSt :=
  unExcept (detect_rrc_connection_failuresE b pkts)

open scoped Classical in
/-- Loop body of `detect_timing_advance_violations`: accumulates
`(ta_violations, ta_adjustments, ta_violation_timestamps, anomalies)`. -/
noncomputable def taLoopStep (pkts : List RPkt)
    (acc : ℕ × ℕ × List ℚ × List DetAnom) (ip : ℕ × RPkt) :
    ℕ × ℕ × List ℚ × List DetAnom :=
  if ip.2.hasRaw then
    let ind := extract_l1_indicators ip.2.payload
    if ind.has_timing_advance then
      let adjustments := acc.2.1 + 1
      let hasViol := containsSub (strBytes "violation") (bytesLower ip.2.payload)
        || containsSub (strBytes "out of range") (bytesLower ip.2.payload)
        || containsSub (strBytes "invalid") (bytesLower ip.2.payload)
      if hasViol then
        let ps : ℝ := if 0 < ind.failure_indicators.length then
            min ((ind.failure_indicators.length : ℝ) / 2) 1
          else 7/10
        let tf := extract_timing_features (sliceAround pkts ip.1 5 5)
        let temporal : ℝ := match tf with
          | some t => if (1/20 : ℝ) < t.jitter then 4/5 else 1/2
          | none => 1/2
        let conf : ℝ := min (ps * (3/5) + temporal * (2/5)) 1
        (acc.1 + 1, adjustments, acc.2.2.1 ++ [ip.2.time],
         acc.2.2.2 ++ [⟨ip.1 + 1, "Timing Advance Violation", max conf (3/4)⟩])
      else (acc.1, adjustments, acc.2.2.1, acc.2.2.2)
    else acc
  else acc

open scoped Classical in
/-- Body of `detect_timing_advance_violations` (inside its `try`). -/
noncomputable def detect_timing_advance_violationsE (b : Baselines)
    (pkts : List RPkt) : Except DetSt DetSt := do
  let acc := pkts.enum.foldl (taLoopStep pkts) (0, 0, [], [])
  let violations := acc.1
  let adjustments := acc.2.1
  let vts := acc.2.2.1
  let anoms := acc.2.2.2
  if 0 < adjustments then
    let rate : ℚ := (violations : ℚ) / (adjustments : ℚ)
    let b1 := update_baseline b "timing_advance" "violation_rate" rate
    let b2 := update_baseline b1 "timing_advance" "avg_ta_adjustments"
      (adjustments : ℚ)
    match is_anomalous b2 "timing_advance" "violation_rate" rate 1 with
    | .error _ => throw (b2, anoms)
    | .ok r =>
      if r.1 = true ∧ (1/20 : ℚ) < rate then
        let temporal : ℝ := if 3 ≤ vts.length then
            (if (analyze_event_rate 10 vts).burst_detected then 9/10 else 1/2)
          else 1/2
        pure (b2, anoms ++ [⟨1, "High TA Violation Rate",
          max (min (r.2.1 * (1/2) + temporal * (2/5) + 1/10) 1) (7/10)⟩])
      else pure (b2, anoms)
  else pure (b, anoms)

/-- `detect_timing_advance_violations` with its `try/except`. -/
noncomputable def detect_timing_advance_violations (b : Baselines)
    (pkts : List RPkt) : DetSt :=
  unExcept (detect_timing_advance_violationsE b pkts)

open scoped Classical in
/-- Loop body of `detect_power_control_anomalies`: accumulates
`(power_issues, power_adjustments, power_issue_timestamps, anomalies)`. -/
noncomputable def powerLoopStep (acc : ℕ × ℕ × List ℚ × List DetAnom)
    (ip : ℕ × RPkt) : ℕ × ℕ × List ℚ × List DetAnom :=
  if ip.2.hasRaw then
    let ind := extract_l1_indicators ip.2.payload
    if ind.has_power_control then
      let adjustments := acc.2.1 + 1
      let hasIssue := 0 < ind.failure_indicators.length
        || containsSub (strBytes "exceed") (bytesLower ip.2.payload)
        || containsSub (strBytes "limit") (bytesLower ip.2.payload)
      if hasIssue then
        let ps : ℝ := if 0 < ind.failure_indicators.length then
            min ((ind.failure_indicators.length : ℝ) / 2) 1
          else 3/5
        (acc.1 + 1, adjustments, acc.2.2.1 ++ [ip.2.time],
         acc.2.2.2 ++ [⟨ip.1 + 1, "Power Control Anomaly", max ps (7/10)⟩])
      else (acc.1, adjustments, acc.2.2.1, acc.2.2.2)
    else acc
  else acc

open scoped Classical in
/-- Body of `detect_power_control_anomalies` (inside its `try`). -/
noncomputable def detect_power_control_anomaliesE (b : Baselines)
    (pkts : List RPkt) : Except DetSt DetSt := do
  let acc := pkts.enum.foldl powerLoopStep (0, 0, [], [])
  let issues := acc.1
  let adjustments := acc.2.1
  let its := acc.2.2.1
  let anoms := acc.2.2.2
  if 50 < adjustments then
    let freq : ℚ := (adjustments : ℚ) / (pkts.length : ℚ)
    let b1 := update_baseline b "power_control" "adjustment_frequency" freq
    match is_anomalous b1 "power_control" "adjustment_frequency" freq 1 with
    | .error _ => throw (b1, anoms)
    | .ok r =>
      if r.1 = true ∧ (1/5 : ℚ) < freq then
        let temporal : ℝ := if 3 ≤ its.length then
            (if (analyze_event_rate 10 its).burst_detected then 4/5 else 1/2)
          else 1/2
        pure (b1, anoms ++ [⟨1, "Excessive Power Control Activity",
          max (min (r.2.1 * (2/5) + temporal * (2/5) + 1/5) 1) (13/20)⟩])
      else pure (b1, anoms)
  else pure (b, anoms)

/-- `detect_power_control_anomalies` with its `try/except`. -/
noncomputable def detect_power_control_anomalies (b : Baselines)
    (pkts : List RPkt) : DetSt :=
  unExcept (detect_power_control_anomaliesE b pkts)

lemma mem_of_getElemOpt {α : Type} {l : List α} {i : ℕ} {a : α}
    (h : l[i]? = some a) : a ∈ l := by
  have hi : i < l.length := by
    by_contra hge
    rw [List.getElem?_eq_none (by omega)] at h
    exact Option.noConfusion h
  rw [List.getElem?_eq_getElem hi] at h
  rw [← Option.some.inj h]
  exact List.getElem_mem hi

lemma enum_snd_mem {α : Type} {l : List α} {ip : ℕ × α} (h : ip ∈ l.enum) :
    ip.2 ∈ l := by
  rcases ip with ⟨i, a⟩
  rw [List.mk_mem_enum_iff_getElem?] at h
  exact mem_of_getElemOpt h

lemma foldlM_skip {ε α β : Type} (f : β → α → Except ε β) (l : List α) (acc : β)
    (h : ∀ x ∈ l, f acc x = .ok acc) : l.foldlM f acc = .ok acc := by
  induction l with
  | nil => rfl
  | cons x t ih =>
    rw [List.foldlM_cons, h x (by simp)]
    show t.foldlM f acc = .ok acc
    exact ih (fun y hy => h y (by simp [hy]))

lemma foldl_skip {α β : Type} (f : β → α → β) (l : List α) (acc : β)
    (h : ∀ x ∈ l, f acc x = acc) : l.foldl f acc = acc := by
  induction l with
  | nil => rfl
  | cons x t ih =>
    rw [List.foldl_cons, h x (by simp)]
    exact ih (fun y hy => h y (by simp [hy]))

lemma rach_tail_ok (b2 : Baselines) (anoms : List DetAnom) :
    isOkE (if orThreshold (get_adaptive_threshold b2 "rach" "attempt_count" 2) 10
        < (((0 : ℕ) : ℚ) : ℝ) then
        match is_anomalous b2 "rach" "attempt_count" ((0 : ℕ) : ℚ) 1 with
        | .error _ => throw (b2, anoms)
        | .ok r =>
          pure (b2, anoms ++ [⟨1, "Excessive RACH Attempts",
            min ((13 : ℝ)/20 + r.2.1 * (3/10)) (19/20)⟩])
      else (pure (b2, anoms) : Except DetSt DetSt)) = true := by
  rcases hlk : lookupA b2 "rach" with _ | ms
  · have hga : get_adaptive_threshold b2 "rach" "attempt_count" 2 = none := by
      rw [get_adaptive_threshold, hlk]
    rw [hga]
    rw [if_neg (by
      show ¬ ((10 : ℝ) < (((0 : ℕ) : ℚ) : ℝ))
      push_cast
      norm_num)]
    rfl
  · split_ifs with hthr
    · rw [is_anomalous_ok' b2 "rach" "attempt_count" _ 1 (by rw [hlk]; rfl)]
      rfl
    · rfl

/-- C9: on a packet stream with no Raw-layer packets (in particular the
empty stream, and any stream irrelevant to the category), none of the
seven category detectors raises internally, so — with each body wrapped
in its `try/except` — each returns its (possibly empty) record list and
never propagates an exception to its caller. -/
theorem detectors_never_raise (b : Baselines) (pkts : List RPkt)
    (h : ∀ p ∈ pkts, p.hasRaw = false) :
    isOkE (detect_rach_failuresE b pkts) = true
    ∧ isOkE (detect_handover_failuresE b pkts) = true
    ∧ isOkE (detect_harq_retransmissionsE b pkts) = true
    ∧ isOkE (detect_crc_errorsE b pkts) = true
    ∧ isOkE (detect_rrc_connection_failuresE b pkts) = true
    ∧ isOkE (detect_timing_advance_violationsE b pkts) = true
    ∧ isOkE (detect_power_control_anomaliesE b pkts) = true := by
  have henum : ∀ ip ∈ pkts.enum, ip.2.hasRaw = false :=
    fun ip hip => h ip.2 (enum_snd_mem hip)
  refine ⟨?_, ?_, ?_, ?_, ?_, ?_, ?_⟩
  · have hfold : pkts.enum.foldlM (rachLoopStep b pkts) (0, 0, [], [])
        = .ok (0, 0, [], []) := by
      apply foldlM_skip
      intro ip hip
      rw [rachLoopStep]
      simp [henum ip hip]
    rw [detect_rach_failuresE, hfold]
    exact rach_tail_ok _ _
  · have hfold : pkts.enum.foldlM (handoverLoopStep b pkts) (0, 0, [], [])
        = .ok (0, 0, [], []) := by
      apply foldlM_skip
      intro ip hip
      rw [handoverLoopStep]
      simp [henum ip hip]
    rw [detect_handover_failuresE, hfold]
    rfl
  · have hfold : pkts.foldl harqLoopStep (0, 0, [], 0, 0) = (0, 0, [], 0, 0) := by
      apply foldl_skip
      intro p hp
      rw [harqLoopStep]
      simp [h p hp]
    rw [detect_harq_retransmissionsE, hfold]
    rfl
  · have hfold : pkts.enum.foldl crcLoopStep (0, 0, [], []) = (0, 0, [], []) := by
      apply foldl_skip
      intro ip hip
      rw [crcLoopStep]
      simp [henum ip hip]
    rw [detect_crc_errorsE, hfold]
    rfl
  · have hfold : pkts.enum.foldl (rrcLoopStep pkts) (0, 0, [], [])
        = (0, 0, [], []) := by
      apply foldl_skip
      intro ip hip
      rw [rrcLoopStep]
      simp [henum ip hip]
    rw [detect_rrc_connection_failuresE, hfold]
    rfl
  · have hfold : pkts.enum.foldl (taLoopStep pkts) (0, 0, [], [])
        = (0, 0, [], []) := by
      apply foldl_skip
      intro ip hip
      rw [taLoopStep]
      simp [henum ip hip]
    rw [detect_timing_advance_violationsE, hfold]
    rfl
  · have hfold : pkts.enum.foldl powerLoopStep (0, 0, [], []) = (0, 0, [], []) := by
      apply foldl_skip
      intro ip hip
      rw [powerLoopStep]
      simp [henum ip hip]
    rw [detect_power_control_anomaliesE, hfold]
    rfl

/-- Witness for `detectors_never_raise` on the fresh tracker and a
one-packet stream without a Raw layer. -/
theorem detectors_never_raise_witness :
    isOkE (detect_rach_failuresE (initBaselines 1000) [⟨false, [], 0, false, 0⟩])
      = true
    ∧ isOkE (detect_handover_failuresE (initBaselines 1000)
        [⟨false, [], 0, false, 0⟩]) = true
    ∧ isOkE (detect_harq_retransmissionsE (initBaselines 1000)
        [⟨false, [], 0, false, 0⟩]) = true
    ∧ isOkE (detect_crc_errorsE (initBaselines 1000)
        [⟨false, [], 0, false, 0⟩]) = true
    ∧ isOkE (detect_rrc_connection_failuresE (initBaselines 1000)
        [⟨false, [], 0, false, 0⟩]) = true
    ∧ isOkE (detect_timing_advance_violationsE (initBaselines 1000)
        [⟨false, [], 0, false, 0⟩]) = true
    ∧ isOkE (detect_power_control_anomaliesE (initBaselines 1000)
        [⟨false, [], 0, false, 0⟩]) = true :=
  detectors_never_raise (initBaselines 1000) [⟨false, [], 0, false, 0⟩]
    (by intro p hp; fin_cases hp; rfl)

end App
